import Mathlib

/-!
# ChaosKVS — verification of the core data model and operations

A shallow embedding, in Lean 4, of the ChaosKVS simulator's core components:

* `Node`    — the single-actor in-memory KVS with a 3-state lifecycle
              (`src/internal/node/node.go`);
* `Cluster` — the registry of nodes keyed by identity
              (`internal/cluster` implementation, concatenated into
              `src/internal/cluster/cluster_test.go`);
* `Metrics` — atomic counters plus the bounded latency reservoir used for P99
              (`src/unnamed/part_012`, package `metrics`);
* the chaos injector's attack counters (`src/internal/chaos/chaos.go`);
* the recovery supervisor's per-node tracking records and recovery counters
  (package `recovery`, concatenated into `src/internal/config/config.go`).

Go maps are embedded as association lists, `time.Duration`/timestamps as `Nat`
(nanoseconds), `[]byte` values as `List Nat`, and a Go `error` return as an
`Option String` (`none` = `nil`).  Stateful methods become pure functions
returning the updated receiver together with their Go results.  All functions
are total; the embedded operations cannot panic.
-/

namespace ChaosKVS

/-! ## Node (`src/internal/node/node.go`) -/

/-- Node lifecycle status (`type Status int`; `StatusStopped` iota = 0,
`StatusRunning`, `StatusSuspended`). -/
inductive Status where
  | stopped
  | running
  | suspended
deriving DecidableEq, Repr

/-- Byte-string values (`[]byte`), one `Nat` per byte. -/
abbrev ByteV := List Nat

/-- Association-list embedding of `map[string][]byte`: lookup
(`value, exists := n.data[key]`). -/
def mapGet : List (String × ByteV) → String → Option ByteV
  | [], _ => none
  | (k', v') :: rest, k => if k' = k then some v' else mapGet rest k

/-- Association-list embedding of `n.data[key] = value`: replace the binding
if the key is present, otherwise add it. -/
def mapSet : List (String × ByteV) → String → ByteV → List (String × ByteV)
  | [], k, v => [(k, v)]
  | (k', v') :: rest, k, v =>
      if k' = k then (k, v) :: rest else (k', v') :: mapSet rest k v

/-- Association-list embedding of `delete(n.data, key)`. -/
def mapDelete (data : List (String × ByteV)) (k : String) : List (String × ByteV) :=
  data.filter (fun p => decide (p.1 ≠ k))

/-- A single KVS node: identity, lifecycle status, injected latency
(nanoseconds) and the key-value store.  The `ctx`/`cancel` fields of the Go
struct carry no observable state and are omitted. -/
structure Node where
  id : String
  status : Status
  delay : Nat
  data : List (String × ByteV)
deriving DecidableEq, Repr

/-- `node.New`: a fresh node starts `Stopped` with an empty store. -/
def Node.new (id : String) : Node :=
  { id := id, status := .stopped, delay := 0, data := [] }

/-- `Node.Start`: fails (with an error naming the node) iff the node is
already `Running`; otherwise the node becomes `Running`. -/
def Node.start (n : Node) : Node × Option String :=
  if n.status = .running then
    (n, some ("node " ++ n.id ++ " is already running"))
  else
    ({ n with status := .running }, none)

/-- `Node.Stop`: fails iff the node is already `Stopped`; otherwise the node
becomes `Stopped` (the store is retained). -/
def Node.stop (n : Node) : Node × Option String :=
  if n.status = .stopped then
    (n, some ("node " ++ n.id ++ " is already stopped"))
  else
    ({ n with status := .stopped }, none)

/-- `Node.Suspend`: fails unless the node is `Running`; otherwise the node
becomes `Suspended`. -/
def Node.suspend (n : Node) : Node × Option String :=
  if n.status ≠ .running then
    (n, some ("node " ++ n.id ++ " is not running"))
  else
    ({ n with status := .suspended }, none)

/-- `Node.Resume`: fails unless the node is `Suspended`; otherwise the node
becomes `Running`. -/
def Node.resume (n : Node) : Node × Option String :=
  if n.status ≠ .suspended then
    (n, some ("node " ++ n.id ++ " is not suspended"))
  else
    ({ n with status := .running }, none)

/-- `Node.SetDelay`. -/
def Node.setDelay (n : Node) (d : Nat) : Node :=
  { n with delay := d }

/-- `Node.Get`: `(nil, false)` unless the node is `Running`, otherwise the
stored value and presence bit.  (The `applyDelay` sleep on the Get path
affects timing only, never the returned values.) -/
def Node.get (n : Node) (key : String) : Option ByteV × Bool :=
  if n.status ≠ .running then (none, false)
  else
    match mapGet n.data key with
    | some v => (some v, true)
    | none => (none, false)

/-- `Node.Set`: errors (naming the node) unless the node is `Running`,
otherwise stores the binding. -/
def Node.set (n : Node) (key : String) (value : ByteV) : Node × Option String :=
  if n.status ≠ .running then
    (n, some ("node " ++ n.id ++ " is not running"))
  else
    ({ n with data := mapSet n.data key value }, none)

/-- `Node.Delete`: errors (naming the node) unless the node is `Running`,
otherwise removes the key. -/
def Node.delete (n : Node) (key : String) : Node × Option String :=
  if n.status ≠ .running then
    (n, some ("node " ++ n.id ++ " is not running"))
  else
    ({ n with data := mapDelete n.data key }, none)

/-- `Node.Keys`: all keys currently present in the store, with no status
check. -/
def Node.keys (n : Node) : List String :=
  n.data.map Prod.fst

/-- `Node.Size`: `len(n.data)`, with no status check. -/
def Node.size (n : Node) : Nat :=
  n.data.length

/-- An error message contains the node identity. -/
def containsId (msg id : String) : Prop :=
  ∃ pre post, msg = pre ++ id ++ post

/-! ## Lifecycle claims -/

/-- C1 (amended). Start succeeds exactly when the node is not `Running` — in
particular Start on a `Suspended` node succeeds and moves it to `Running`;
Stop succeeds exactly when the node is `Running` or `Suspended`; a failed
transition leaves the node (and so its status) unchanged. -/
theorem C1_lifecycle (n : Node) :
    ((n.start.2 = none) ↔ n.status ≠ .running) ∧
    (n.start.2 = none → n.start.1.status = .running) ∧
    ((n.stop.2 = none) ↔ (n.status = .running ∨ n.status = .suspended)) ∧
    (n.stop.2 = none → n.stop.1.status = .stopped) ∧
    (n.start.2 ≠ none → n.start.1 = n) ∧
    (n.stop.2 ≠ none → n.stop.1 = n) := by
  unfold Node.start Node.stop
  cases h : n.status <;> simp [h]

/-- Witness for `C1_lifecycle` at a concrete suspended node: Stop succeeds
and a failed Start on a running node changes nothing. -/
theorem C1_lifecycle_witness :
    let n : Node := { id := "node-1", status := .suspended, delay := 0, data := [] }
    n.stop.2 = none ∧ n.stop.1.status = .stopped := by
  intro n
  refine ⟨((C1_lifecycle n).2.2.1).mpr (Or.inr rfl), (C1_lifecycle n).2.2.2.1 ?_⟩
  exact ((C1_lifecycle n).2.2.1).mpr (Or.inr rfl)

/-- C1 counterexample. The claim says Start on a `Suspended` node fails; in
the code `Node.Start` only rejects a `Running` node, so Start on this
suspended node succeeds (and the node becomes `Running`). -/
theorem C1_counterexample :
    let n : Node := { id := "node-1", status := .suspended, delay := 0, data := [] }
    ¬ (n.start.2 ≠ none) ∧ n.start.1.status = .running := by
  constructor <;> simp [Node.start]

/-! ## Cluster (`internal/cluster`, concatenated into
`src/internal/cluster/cluster_test.go`)

The registry `nodes map[string]*node.Node` is embedded as an association
list of `(identity, node)` pairs.  `RemoveNode` mutates the removed node
through its pointer (it calls `Stop` if the node is `Running`); the embedding
returns the removed node's post-call state alongside the registry and the Go
error. -/

/-- Registry lookup for `map[string]*node.Node`. -/
def clusterGet : List (String × Node) → String → Option Node
  | [], _ => none
  | (k', n) :: rest, k => if k' = k then some n else clusterGet rest k

/-- A cluster of uniquely named nodes (the `ctx` field carries no observable
state and is omitted). -/
structure Cluster where
  nodes : List (String × Node)
deriving Repr

/-- `cluster.New`. -/
def Cluster.new : Cluster := { nodes := [] }

/-- `Cluster.Nodes`: a snapshot of all registered nodes. -/
def Cluster.nodesList (c : Cluster) : List Node :=
  c.nodes.map Prod.snd

/-- `Cluster.Size`: `len(c.nodes)`. -/
def Cluster.size (c : Cluster) : Nat :=
  c.nodes.length

/-- `Cluster.RunningCount`: the number of registered nodes whose status reads
`Running`. -/
def Cluster.runningCount (c : Cluster) : Nat :=
  c.nodes.countP (fun p => decide (p.2.status = .running))

/-- `Cluster.StoppedCount`: the number of registered nodes whose status reads
`Stopped`. -/
def Cluster.stoppedCount (c : Cluster) : Nat :=
  c.nodes.countP (fun p => decide (p.2.status = .stopped))

/-- Modelled from the spec: `Cluster.SuspendedCount` has no implementation in
the source (the cluster exposes only `Size`, `RunningCount` and
`StoppedCount`; the API server in `src/unnamed/part_007` counts suspended
nodes by iterating `Nodes()` itself).  Following the spec's invariant
|Nodes()| = Size() = RunningCount() + StoppedCount() + SuspendedCount(), it
is the number of registered nodes whose status reads `Suspended`. -/
def Cluster.suspendedCount (c : Cluster) : Nat :=
  c.nodes.countP (fun p => decide (p.2.status = .suspended))

/-- `Cluster.AddNode`: fails if the identity is already registered. -/
def Cluster.addNode (c : Cluster) (n : Node) : Cluster × Option String :=
  match clusterGet c.nodes n.id with
  | some _ => (c, some ("node " ++ n.id ++ " already exists in cluster"))
  | none => ({ nodes := c.nodes ++ [(n.id, n)] }, none)

/-- `Cluster.RemoveNode`: fails if the identity is unknown; otherwise calls
`Stop` on the removed node only when its status is `Running`, then drops it
from the registry.  The middle component is the removed node's state after
the call (the Go code mutates it through the shared pointer). -/
def Cluster.removeNode (c : Cluster) (nodeID : String) :
    Cluster × Option Node × Option String :=
  match clusterGet c.nodes nodeID with
  | none => (c, none, some ("node " ++ nodeID ++ " not found in cluster"))
  | some n =>
      let removed := if n.status = .running then n.stop.1 else n
      ({ nodes := c.nodes.filter (fun p => decide (p.1 ≠ nodeID)) }, some removed, none)

/-- C4. Every cluster satisfies |Nodes()| = Size() and every node is counted
by exactly one of the three per-status counts, so Size() = RunningCount() +
StoppedCount() + SuspendedCount(). -/
theorem C4_cluster_counts (c : Cluster) :
    c.nodesList.length = c.size ∧
    c.size = c.runningCount + c.stoppedCount + c.suspendedCount := by
  refine ⟨by simp [Cluster.nodesList, Cluster.size], ?_⟩
  unfold Cluster.size Cluster.runningCount Cluster.stoppedCount Cluster.suspendedCount
  induction c.nodes with
  | nil => rfl
  | cons p rest ih =>
      cases h : p.2.status <;> simp [List.countP_cons, h] <;> omega

/-- C10. Removing a `Suspended` node succeeds, removes it from the registry,
and does not call `Stop` on it: the removed node is returned unchanged, still
`Suspended`. -/
theorem C10_remove_suspended (c : Cluster) (nodeID : String) (n : Node)
    (hfind : clusterGet c.nodes nodeID = some n)
    (hsusp : n.status = .suspended) :
    (c.removeNode nodeID).2.2 = none ∧
    (c.removeNode nodeID).2.1 = some n ∧
    n.status = .suspended ∧
    clusterGet (c.removeNode nodeID).1.nodes nodeID = none := by
  have hnotrun : ¬ n.status = .running := by simp [hsusp]
  refine ⟨?_, ?_, hsusp, ?_⟩ <;> simp only [Cluster.removeNode, hfind, hnotrun, if_false]
  · induction c.nodes with
    | nil => rfl
    | cons p rest ih =>
        by_cases h : p.1 = nodeID <;> simp [clusterGet, h] at hfind ⊢ <;>
          simp_all [clusterGet]

/-- Witness for `C10_remove_suspended`: a one-node cluster holding a
suspended node. -/
theorem C10_remove_suspended_witness :
    let n : Node := { id := "node-1", status := .suspended, delay := 0, data := [] }
    let c : Cluster := { nodes := [("node-1", n)] }
    (c.removeNode "node-1").2.2 = none ∧
    (c.removeNode "node-1").2.1 = some n ∧
    n.status = .suspended ∧
    clusterGet (c.removeNode "node-1").1.nodes "node-1" = none := by
  intro n c
  exact C10_remove_suspended c "node-1" n (by rfl) (by rfl)

/-! ## Store operation claims -/

theorem mapGet_mapSet_self (d : List (String × ByteV)) (k : String) (v : ByteV) :
    mapGet (mapSet d k v) k = some v := by
  induction d with
  | nil => simp [mapSet, mapGet]
  | cons p rest ih =>
      by_cases h : p.1 = k <;> simp [mapSet, mapGet, h, ih]

theorem mapGet_mapSet_other (d : List (String × ByteV)) (k k' : String) (v : ByteV)
    (hne : k' ≠ k) : mapGet (mapSet d k' v) k = mapGet d k := by
  induction d with
  | nil => simp [mapSet, mapGet, hne]
  | cons p rest ih =>
      by_cases h : p.1 = k'
      · simp [mapSet, mapGet, h, hne]
      · simp [mapSet, mapGet, h, ih]

theorem mapGet_mapDelete_self (d : List (String × ByteV)) (k : String) :
    mapGet (mapDelete d k) k = none := by
  induction d with
  | nil => rfl
  | cons p rest ih =>
      by_cases h : p.1 = k <;> simp [mapDelete, mapGet, h] at ih ⊢ <;>
        simpa [mapDelete] using ih

theorem mapGet_mapDelete_other (d : List (String × ByteV)) (k k' : String)
    (hne : k' ≠ k) : mapGet (mapDelete d k') k = mapGet d k := by
  induction d with
  | nil => rfl
  | cons p rest ih =>
      have ih' := ih
      simp only [mapDelete, ne_eq, decide_not] at ih'
      by_cases h : p.1 = k'
      · simpa [mapDelete, mapGet, List.filter_cons, h, hne] using ih'
      · simp [mapDelete, mapGet, List.filter_cons, h, ih']

/-- A sequence of store operations: `(key, some v)` is `Set(key, v)` and
`(key, none)` is `Delete(key)`. -/
def Node.applyOps (n : Node) : List (String × Option ByteV) → Node
  | [] => n
  | (key, some v) :: rest => Node.applyOps (n.set key v).1 rest
  | (key, none) :: rest => Node.applyOps (n.delete key).1 rest

theorem applyOps_avoid_key (k : String) (ops : List (String × Option ByteV))
    (m : Node) (hrun : m.status = .running) (hops : ∀ p ∈ ops, p.1 ≠ k) :
    (m.applyOps ops).status = .running ∧ (m.applyOps ops).get k = m.get k := by
  induction ops generalizing m with
  | nil => exact ⟨hrun, rfl⟩
  | cons p rest ih =>
      have hpk : p.1 ≠ k := hops p (by simp)
      have hrest : ∀ q ∈ rest, q.1 ≠ k :=
        fun q hq => hops q (List.mem_cons_of_mem _ hq)
      cases p with
      | mk key val =>
          simp only at hpk
          cases val with
          | some v =>
              have hstep : (m.set key v).1
                  = { m with data := mapSet m.data key v } := by
                simp [Node.set, hrun]
              have := ih (m.set key v).1 (by rw [hstep]; exact hrun) hrest
              refine ⟨this.1, this.2.trans ?_⟩
              rw [hstep]
              simp [Node.get, hrun, mapGet_mapSet_other _ _ _ _ hpk]
          | none =>
              have hstep : (m.delete key).1
                  = { m with data := mapDelete m.data key } := by
                simp [Node.delete, hrun]
              have := ih (m.delete key).1 (by rw [hstep]; exact hrun) hrest
              refine ⟨this.1, this.2.trans ?_⟩
              rw [hstep]
              simp [Node.get, hrun, mapGet_mapDelete_other _ _ _ hpk]

/-- C5. On a `Running` node: after `Set(k,v)` succeeds the node is still
`Running` and `Get(k)` returns `(v, true)`; any sequence of further `Set` or
`Delete` operations that avoids `k` leaves `Get(k)` unchanged, so the value
persists as long as the node stays `Running` and no `Delete(k)` or later
`Set(k,·)` intervenes; and after `Delete(k)` succeeds, `Get(k)` returns
`(nil, false)`. -/
theorem C5_set_get_delete (n : Node) (k k' : String) (v v' : ByteV)
    (ops : List (String × Option ByteV))
    (hrun : n.status = .running) (hne : k' ≠ k)
    (hops : ∀ p ∈ ops, p.1 ≠ k) :
    (n.set k v).2 = none ∧
    (n.set k v).1.status = .running ∧
    (n.set k v).1.get k = (some v, true) ∧
    ((n.set k v).1.set k' v').1.get k = (some v, true) ∧
    ((n.set k v).1.delete k').1.get k = (some v, true) ∧
    ((n.set k v).1.applyOps ops).get k = (some v, true) ∧
    (n.delete k).2 = none ∧
    (n.delete k).1.get k = (none, false) := by
  have hs : n.set k v = ({ n with data := mapSet n.data k v }, none) := by
    simp [Node.set, hrun]
  have hd : n.delete k = ({ n with data := mapDelete n.data k }, none) := by
    simp [Node.delete, hrun]
  have hrun2 : (n.set k v).1.status = .running := by rw [hs]; exact hrun
  have hget : (n.set k v).1.get k = (some v, true) := by
    rw [hs]; simp [Node.get, hrun, mapGet_mapSet_self]
  refine ⟨by rw [hs], hrun2, hget, ?_, ?_, ?_, by rw [hd], ?_⟩
  · rw [hs]
    simp [Node.set, Node.get, hrun, mapGet_mapSet_other _ _ _ _ hne,
      mapGet_mapSet_self]
  · rw [hs]
    simp [Node.delete, Node.get, hrun, mapGet_mapDelete_other _ _ _ hne,
      mapGet_mapSet_self]
  · exact ((applyOps_avoid_key k ops (n.set k v).1 hrun2 hops).2).trans hget
  · rw [hd]; simp [Node.get, hrun, mapGet_mapDelete_self]

/-- Witness for `C5_set_get_delete` at a concrete running node, keys, and an
intervening operation sequence on other keys. -/
theorem C5_set_get_delete_witness :
    let n : Node := { id := "node-1", status := .running, delay := 0, data := [] }
    (n.set "k" [1]).1.get "k" = (some [1], true) ∧
    ((n.set "k" [1]).1.applyOps [("x", some [9]), ("y", none)]).get "k"
      = (some [1], true) := by
  intro n
  have h := C5_set_get_delete n "k" "x" [1] [2] [("x", some [9]), ("y", none)]
    rfl (by decide) (by decide)
  exact ⟨h.2.2.1, h.2.2.2.2.2.1⟩

/-- C6. On a node that is not `Running`: `Get` returns `(nil, false)` for
every key, `Set` and `Delete` return errors, and those errors — like every
invalid lifecycle-transition error — contain the node's identity.  (All
embedded operations are total functions: none can panic.) -/
theorem C6_non_running_errors (n : Node) (k : String) (v : ByteV)
    (hnot : n.status ≠ .running) :
    n.get k = (none, false) ∧
    (∃ e, (n.set k v).2 = some e ∧ containsId e n.id) ∧
    (∃ e, (n.delete k).2 = some e ∧ containsId e n.id) ∧
    (∀ e, n.start.2 = some e → containsId e n.id) ∧
    (∀ e, n.stop.2 = some e → containsId e n.id) ∧
    (∀ e, n.suspend.2 = some e → containsId e n.id) ∧
    (∀ e, n.resume.2 = some e → containsId e n.id) := by
  refine ⟨?_, ?_, ?_, ?_, ?_, ?_, ?_⟩
  · simp [Node.get, hnot]
  · exact ⟨_, by simp [Node.set, hnot], "node ", " is not running", rfl⟩
  · exact ⟨_, by simp [Node.delete, hnot], "node ", " is not running", rfl⟩
  · intro e he
    by_cases hc : n.status = .running
    · simp only [Node.start, hc, if_true, Option.some.injEq] at he
      exact ⟨"node ", " is already running", he.symm⟩
    · simp [Node.start, hc] at he
  · intro e he
    by_cases hc : n.status = .stopped
    · simp only [Node.stop, hc, if_true, Option.some.injEq] at he
      exact ⟨"node ", " is already stopped", he.symm⟩
    · simp [Node.stop, hc] at he
  · intro e he
    by_cases hc : n.status = .running
    · simp [Node.suspend, hc] at he
    · simp only [Node.suspend, ne_eq, hc, not_false_eq_true, if_true,
        Option.some.injEq] at he
      exact ⟨"node ", " is not running", he.symm⟩
  · intro e he
    by_cases hc : n.status = .suspended
    · simp [Node.resume, hc] at he
    · simp only [Node.resume, ne_eq, hc, not_false_eq_true, if_true,
        Option.some.injEq] at he
      exact ⟨"node ", " is not suspended", he.symm⟩

/-- Witness for `C6_non_running_errors` at a concrete stopped node. -/
theorem C6_non_running_errors_witness :
    let n : Node := { id := "node-1", status := .stopped, delay := 0,
                      data := [("k", [7])] }
    n.get "k" = (none, false) ∧ (∃ e, (n.set "k" [1]).2 = some e ∧ containsId e n.id) := by
  intro n
  have h := C6_non_running_errors n "k" [1] (by decide)
  exact ⟨h.1, h.2.1⟩

/-- C8. Lifecycle operations change only the status field.  From a `Running`
node, Suspend then Resume returns exactly the original node; from any
non-`Stopped` node, Stop then Start yields the node with status `Running` and
the key-value data (and delay) untouched — so every key maps to exactly the
value it had before. -/
theorem C8_lifecycle_preserves_store (n : Node) :
    (n.status = .running → (n.suspend.1.resume).1 = n) ∧
    (n.status ≠ .stopped →
      (n.stop.1.start).1 = { n with status := .running } ∧
      (n.stop.1.start).1.data = n.data ∧
      (n.stop.1.start).1.status = .running) := by
  constructor
  · intro hrun
    cases n with
    | mk id status delay data =>
        simp only at hrun
        simp [Node.suspend, Node.resume, hrun]
  · intro hns
    have h1 : n.stop.1 = { n with status := .stopped } := by
      simp [Node.stop, hns]
    refine ⟨?_, ?_, ?_⟩ <;> simp [h1, Node.start]

/-- Witness for `C8_lifecycle_preserves_store` at a concrete running node
with data. -/
theorem C8_lifecycle_preserves_store_witness :
    let n : Node := { id := "node-1", status := .running, delay := 5,
                      data := [("k", [1, 2])] }
    (n.suspend.1.resume).1 = n ∧ (n.stop.1.start).1.data = n.data := by
  intro n
  have h := C8_lifecycle_preserves_store n
  exact ⟨h.1 rfl, (h.2 (by decide)).2.1⟩

/-- C9. `Keys` and `Size` are independent of the lifecycle state: changing
only the status never changes them, in every state `Keys` returns exactly the
keys present in the store and `Size` their count, and neither operation can
fail (both are total and perform no status check). -/
theorem C9_keys_size_lifecycle_independent (n : Node) (s : Status) :
    Node.keys { n with status := s } = n.keys ∧
    Node.size { n with status := s } = n.size ∧
    n.keys = n.data.map Prod.fst ∧
    n.size = n.keys.length := by
  refine ⟨rfl, rfl, rfl, ?_⟩
  simp [Node.size, Node.keys]

/-! ## Metrics (`src/unnamed/part_012`, package `metrics`)

Latencies are nanosecond counts (`Nat`).  The reservoir is the `latencies`
slice; `New` fixes its capacity `maxLatencySamples` at 1000. -/

/-- The metrics aggregator's observable state (timestamps, which only feed
the RPS rates, are omitted). -/
structure Metrics where
  totalRequests : Nat
  successRequests : Nat
  failedRequests : Nat
  totalLatencyNs : Nat
  windowRequests : Nat
  latencies : List Nat
  maxLatencySamples : Nat
deriving Repr

/-- `metrics.New`. -/
def Metrics.new : Metrics :=
  { totalRequests := 0, successRequests := 0, failedRequests := 0,
    totalLatencyNs := 0, windowRequests := 0, latencies := [],
    maxLatencySamples := 1000 }

/-- `Metrics.RecordSuccess`: bumps total/success/latency-sum/window and
appends the latency to the reservoir only while it holds fewer than
`maxLatencySamples` samples. -/
def Metrics.recordSuccess (m : Metrics) (latency : Nat) : Metrics :=
  { m with
    totalRequests := m.totalRequests + 1
    successRequests := m.successRequests + 1
    totalLatencyNs := m.totalLatencyNs + latency
    windowRequests := m.windowRequests + 1
    latencies :=
      if m.latencies.length < m.maxLatencySamples then m.latencies ++ [latency]
      else m.latencies }

/-- `Metrics.RecordFailure`: bumps total/failed/latency-sum/window; the
reservoir is untouched. -/
def Metrics.recordFailure (m : Metrics) (latency : Nat) : Metrics :=
  { m with
    totalRequests := m.totalRequests + 1
    failedRequests := m.failedRequests + 1
    totalLatencyNs := m.totalLatencyNs + latency
    windowRequests := m.windowRequests + 1 }

/-- `Metrics.P99Latency`: 0 for an empty reservoir; otherwise copy, sort
ascending, and index at `int(float64(N) * 0.99)` clamped to `N-1`.  For every
reachable reservoir size `N ≤ 1000` the Go float computation
`int(float64(N) * 0.99)` equals `99 * N / 100` in exact integer arithmetic
(checked exhaustively for `N = 1..1000`), which is the form used here. -/
def Metrics.p99Latency (m : Metrics) : Nat :=
  if m.latencies.length = 0 then 0
  else
    let sorted := List.insertionSort (· ≤ ·) m.latencies
    let idx := 99 * sorted.length / 100
    let idx := if sorted.length ≤ idx then sorted.length - 1 else idx
    sorted.getD idx 0

/-- One recorded request outcome. -/
inductive MetricOp where
  | success (latency : Nat)
  | failure (latency : Nat)
deriving DecidableEq, Repr

/-- Dispatch one recorded outcome. -/
def Metrics.apply (m : Metrics) : MetricOp → Metrics
  | .success lat => m.recordSuccess lat
  | .failure lat => m.recordFailure lat

/-- The metrics state after a sequence of recorded outcomes, starting from
`metrics.New`. -/
def Metrics.run (ops : List MetricOp) : Metrics :=
  ops.foldl Metrics.apply Metrics.new

/-- The latencies of the success records of a trace, in order. -/
def successLatencies : List MetricOp → List Nat
  | [] => []
  | .success lat :: rest => lat :: successLatencies rest
  | .failure _ :: rest => successLatencies rest

theorem run_latencies_aux (ops : List MetricOp) (m : Metrics)
    (hmax : m.maxLatencySamples = 1000) :
    (ops.foldl Metrics.apply m).latencies
      = m.latencies ++ (successLatencies ops).take (1000 - m.latencies.length) := by
  induction ops generalizing m with
  | nil => simp [successLatencies]
  | cons op rest ih =>
      cases op with
      | success lat =>
          have step : (Metrics.apply m (.success lat)).latencies
              = if m.latencies.length < 1000 then m.latencies ++ [lat]
                else m.latencies := by
            simp [Metrics.apply, Metrics.recordSuccess, hmax]
          have hmax2 : (Metrics.apply m (.success lat)).maxLatencySamples = 1000 := by
            simp [Metrics.apply, Metrics.recordSuccess, hmax]
          by_cases hlen : m.latencies.length < 1000

          · have := ih (Metrics.apply m (.success lat)) hmax2
            rw [List.foldl_cons, this, step]
            simp only [hlen, if_true]
            obtain ⟨k, hk⟩ : ∃ k, 1000 - m.latencies.length = k + 1 :=
              ⟨1000 - m.latencies.length - 1, by omega⟩
            have hk2 : 1000 - (m.latencies.length + 1) = k := by omega
            simp [successLatencies, hk, hk2, List.take_succ_cons]
          · have := ih (Metrics.apply m (.success lat)) hmax2
            rw [List.foldl_cons, this, step]
            simp only [hlen, if_false]
            have h0 : 1000 - m.latencies.length = 0 := by omega
            simp [successLatencies, h0]
      | failure lat =>
          have step : (Metrics.apply m (.failure lat)).latencies = m.latencies := by
            simp [Metrics.apply, Metrics.recordFailure]
          have hmax2 : (Metrics.apply m (.failure lat)).maxLatencySamples = 1000 := by
            simp [Metrics.apply, Metrics.recordFailure, hmax]
          have := ih (Metrics.apply m (.failure lat)) hmax2
          rw [List.foldl_cons, this, step]
          simp [successLatencies]

theorem p99_sorted_index (m : Metrics) (hne : m.latencies ≠ []) :
    ∃ l : List Nat, l.Perm m.latencies ∧ l.Sorted (· ≤ ·) ∧
      m.p99Latency = l.getD (min (99 * m.latencies.length / 100)
        (m.latencies.length - 1)) 0 ∧
      m.p99Latency ∈ m.latencies := by
  have hN : 0 < m.latencies.length := List.length_pos.mpr hne
  refine ⟨List.insertionSort (· ≤ ·) m.latencies,
    List.perm_insertionSort _ _, List.sorted_insertionSort _ _, ?_, ?_⟩
  all_goals
    have hlen : (List.insertionSort (· ≤ ·) m.latencies).length
        = m.latencies.length := (List.perm_insertionSort _ _).length_eq
    have hidx : 99 * m.latencies.length / 100 < m.latencies.length := by
      rw [Nat.div_lt_iff_lt_mul (by omega)]
      omega
    have hp99 : m.p99Latency = (List.insertionSort (· ≤ ·) m.latencies).getD
        (99 * m.latencies.length / 100) 0 := by
      unfold Metrics.p99Latency
      rw [if_neg (by omega)]
      simp only [hlen]
      rw [if_neg (by omega)]
  · rw [hp99]
    have : min (99 * m.latencies.length / 100) (m.latencies.length - 1)
        = 99 * m.latencies.length / 100 := by omega
    rw [this]
  · rw [hp99]
    have hidx2 : 99 * m.latencies.length / 100
        < (List.insertionSort (· ≤ ·) m.latencies).length := by omega
    rw [List.getD_eq_getElem _ _ hidx2]
    exact (List.perm_insertionSort (· ≤ ·) m.latencies).mem_iff.mp
      (List.getElem_mem hidx2)

/-- C7. After any trace of recorded outcomes, the P99 reservoir holds exactly
the first 1000 success latencies — failures never add a sample and the
reservoir stops growing at its fixed capacity; `P99Latency` is 0 for an
empty reservoir, and otherwise is the element at index
⌊0.99 × N⌋ (clamped to N−1) of the ascending sort of the reservoir — in
particular it is one of the success-recorded latencies. -/
theorem C7_p99_reservoir (ops : List MetricOp) :
    (Metrics.run ops).latencies = (successLatencies ops).take 1000 ∧
    ((Metrics.run ops).latencies = [] → (Metrics.run ops).p99Latency = 0) ∧
    ((Metrics.run ops).latencies ≠ [] →
      ∃ l : List Nat, l.Perm (Metrics.run ops).latencies ∧ l.Sorted (· ≤ ·) ∧
        (Metrics.run ops).p99Latency
          = l.getD (min (99 * (Metrics.run ops).latencies.length / 100)
              ((Metrics.run ops).latencies.length - 1)) 0 ∧
        (Metrics.run ops).p99Latency ∈ (Metrics.run ops).latencies) := by
  refine ⟨?_, ?_, p99_sorted_index _⟩
  · have := run_latencies_aux ops Metrics.new rfl
    simpa [Metrics.run, Metrics.new] using this
  · intro h
    simp [Metrics.p99Latency, h]

/-- Witness for `C7_p99_reservoir` on the trace success 5, failure 7,
success 3: the reservoir is exactly `[5, 3]` and the P99 value is drawn from
it. -/
theorem C7_p99_reservoir_witness :
    (Metrics.run [MetricOp.success 5, MetricOp.failure 7, MetricOp.success 3]).latencies
      = [5, 3] ∧
    (Metrics.run [MetricOp.success 5, MetricOp.failure 7, MetricOp.success 3]).p99Latency
      ∈ (Metrics.run [MetricOp.success 5, MetricOp.failure 7,
          MetricOp.success 3]).latencies := by
  have h := C7_p99_reservoir [MetricOp.success 5, MetricOp.failure 7, MetricOp.success 3]
  exact ⟨h.1, (h.2.2 (by decide)).choose_spec.2.2.2⟩

/-! ## Chaos injector counters (`src/internal/chaos/chaos.go`)

`Monkey.attack` runs once per tick: it selects
`min(TargetCount, #running)` targets — all in `Running` state — and, when
that set is non-empty, applies one attack type to each target and then
increments the global `attackCount` once.  On a `Running` target
`Stop`/`Suspend`/`SetDelay` all succeed, so each target bumps the chosen
per-type counter (`attackByType`).  Randomness (shuffle, type choice) is
modelled by quantifying over the target count and the chosen type. -/

/-- `AttackType` (`AttackKill` iota = 0, `AttackSuspend`, `AttackDelay`). -/
inductive AttackType where
  | kill
  | suspend
  | delay
deriving DecidableEq, Repr

/-- The injector's counters: the global `attackCount` and the
`attackByType` map. -/
structure AttackCounts where
  attackCount : Nat
  byKill : Nat
  bySuspend : Nat
  byDelay : Nat
deriving DecidableEq, Repr

/-- Counters of a fresh `Monkey` (`chaos.New`). -/
def AttackCounts.zero : AttackCounts :=
  { attackCount := 0, byKill := 0, bySuspend := 0, byDelay := 0 }

/-- `Σ ByType`. -/
def AttackCounts.sumByType (s : AttackCounts) : Nat :=
  s.byKill + s.bySuspend + s.byDelay

/-- `Monkey.executeAttack` on a `Running` target: the attack succeeds and the
per-type counter increments. -/
def executeAttack (a : AttackType) (s : AttackCounts) : AttackCounts :=
  match a with
  | .kill => { s with byKill := s.byKill + 1 }
  | .suspend => { s with bySuspend := s.bySuspend + 1 }
  | .delay => { s with byDelay := s.byDelay + 1 }

/-- `Monkey.attack`, one tick: `targets` is the number of selected running
targets; when zero the tick is skipped, otherwise each target is attacked
with the chosen type and then the global counter increments once. -/
def attackTick (targets : Nat) (a : AttackType) (s : AttackCounts) : AttackCounts :=
  if targets = 0 then s
  else
    let s1 := (List.range targets).foldl (fun acc _ => executeAttack a acc) s
    { s1 with attackCount := s1.attackCount + 1 }

/-- The counters after a sequence of attack ticks, each given by its target
count and chosen attack type, starting from a fresh injector. -/
def runAttackTicks (ticks : List (Nat × AttackType)) : AttackCounts :=
  ticks.foldl (fun s t => attackTick t.1 t.2 s) AttackCounts.zero

theorem executeAttack_counts (a : AttackType) (s : AttackCounts) :
    (executeAttack a s).sumByType = s.sumByType + 1 ∧
    (executeAttack a s).attackCount = s.attackCount := by
  cases a <;> simp [executeAttack, AttackCounts.sumByType] <;> omega

theorem foldl_executeAttack_counts (l : List Nat) (a : AttackType) (s : AttackCounts) :
    (l.foldl (fun acc _ => executeAttack a acc) s).sumByType
      = s.sumByType + l.length ∧
    (l.foldl (fun acc _ => executeAttack a acc) s).attackCount = s.attackCount := by
  induction l generalizing s with
  | nil => simp
  | cons x rest ih =>
      have he := executeAttack_counts a s
      have := ih (executeAttack a s)
      constructor <;> simp [this.1, this.2, he.1, he.2] <;> omega

theorem attackTick_counts (t : Nat) (a : AttackType) (s : AttackCounts) :
    (attackTick t a s).attackCount
      = s.attackCount + (if t = 0 then 0 else 1) ∧
    (attackTick t a s).sumByType = s.sumByType + t := by
  by_cases h : t = 0
  · simp [attackTick, h]
  · have hf := foldl_executeAttack_counts (List.range t) a s
    simp only [attackTick, h, if_false]
    constructor
    · simp [hf.2]
    · simpa [AttackCounts.sumByType] using hf.1

/-- The number of ticks that actually attack (non-empty target set). -/
def nonzeroTickCount : List (Nat × AttackType) → Nat
  | [] => 0
  | t :: rest => (if t.1 = 0 then 0 else 1) + nonzeroTickCount rest

/-- The total number of attacked targets over a tick sequence. -/
def targetSum : List (Nat × AttackType) → Nat
  | [] => 0
  | t :: rest => t.1 + targetSum rest

theorem runAttackTicks_counts (ticks : List (Nat × AttackType)) (s : AttackCounts) :
    (ticks.foldl (fun s t => attackTick t.1 t.2 s) s).attackCount
      = s.attackCount + nonzeroTickCount ticks ∧
    (ticks.foldl (fun s t => attackTick t.1 t.2 s) s).sumByType
      = s.sumByType + targetSum ticks := by
  induction ticks generalizing s with
  | nil => simp [nonzeroTickCount, targetSum]
  | cons t rest ih =>
      have ht := attackTick_counts t.1 t.2 s
      have hr := ih (attackTick t.1 t.2 s)
      refine ⟨?_, ?_⟩ <;>
        simp only [List.foldl_cons, nonzeroTickCount, targetSum,
          hr.1, hr.2, ht.1, ht.2] <;> omega

theorem nonzeroTickCount_le_targetSum (ticks : List (Nat × AttackType)) :
    nonzeroTickCount ticks ≤ targetSum ticks := by
  induction ticks with
  | nil => simp [nonzeroTickCount, targetSum]
  | cons t rest ih =>
      simp only [nonzeroTickCount, targetSum]
      by_cases ht : t.1 = 0 <;> simp [ht] <;> omega

theorem nonzeroTickCount_eq_targetSum (ticks : List (Nat × AttackType))
    (hall : ∀ t ∈ ticks, t.1 ≤ 1) :
    nonzeroTickCount ticks = targetSum ticks := by
  induction ticks with
  | nil => simp [nonzeroTickCount, targetSum]
  | cons t rest ih =>
      have h1 : t.1 ≤ 1 := hall t (by simp)
      have ih2 := ih (fun x hx => hall x (List.mem_cons_of_mem _ hx))
      simp only [nonzeroTickCount, targetSum, ih2]
      by_cases ht : t.1 = 0 <;> simp [ht] <;> omega

/-- C3 (amended). The global attack counter counts attack ticks, not attacked
targets: after every sequence of injector ticks, TotalAttacks ≤ Σ ByType
(each non-skipped tick increments the global counter once but a per-type
counter once per target), and equality holds whenever every tick attacks at
most one target — in particular for the default TargetCount of 1. -/
theorem C3_attack_counters (ticks : List (Nat × AttackType)) :
    (runAttackTicks ticks).attackCount ≤ (runAttackTicks ticks).sumByType ∧
    ((∀ t ∈ ticks, t.1 ≤ 1) →
      (runAttackTicks ticks).attackCount = (runAttackTicks ticks).sumByType) := by
  obtain ⟨h1, h2⟩ := runAttackTicks_counts ticks AttackCounts.zero
  have hz1 : AttackCounts.zero.attackCount = 0 := rfl
  have hz2 : AttackCounts.zero.sumByType = 0 := rfl
  constructor
  · have := nonzeroTickCount_le_targetSum ticks
    simp only [runAttackTicks]
    omega
  · intro hall
    have := nonzeroTickCount_eq_targetSum ticks hall
    simp only [runAttackTicks]
    omega

/-- Witness for `C3_attack_counters`: three ticks with at most one target
each give equal counters. -/
theorem C3_attack_counters_witness :
    (∀ t ∈ [((1 : Nat), AttackType.kill), (0, AttackType.delay),
        (1, AttackType.suspend)], t.1 ≤ 1) ∧
    (runAttackTicks [(1, AttackType.kill), (0, AttackType.delay),
        (1, AttackType.suspend)]).attackCount
      = (runAttackTicks [(1, AttackType.kill), (0, AttackType.delay),
          (1, AttackType.suspend)]).sumByType :=
  ⟨by decide, (C3_attack_counters _).2 (by decide)⟩

/-- C3 counterexample. One tick that kills two running targets yields
TotalAttacks = 1 but Σ ByType = 2: the claimed equality fails. -/
theorem C3_counterexample :
    ¬ ((runAttackTicks [(2, AttackType.kill)]).attackCount
        = (runAttackTicks [(2, AttackType.kill)]).sumByType) := by
  decide

/-! ## Recovery supervisor (package `recovery`, concatenated into
`src/internal/config/config.go`)

Timestamps are `Nat` and `failedAt = none` embeds Go's zero `time.Time`
(`state.FailedAt.IsZero()`); `now.Sub(failedAt)` becomes truncated `Nat`
subtraction.  The supervisor is sequential: within a tick each node's
observed status is its actual status, so `Node.Start` on a node observed
`Stopped` and `Node.Resume` on a node observed `Suspended` always succeed —
the error paths that would bump `FailedRecoveries` are unreachable without
interleaving.  Between ticks the environment (injector, load, clients) may
change node statuses arbitrarily, so a tick's observed statuses are free
inputs.  The `ClearDelay` branch of `handleRunningNode` touches only the
node's delay knob (`Node.setDelay 0`), never the tracking record or the
counters.  The code creates a node's tracking record at its first check with
`LastSeen := now`; the model pre-creates fresh records (`lastSeen = 0`),
which is equivalent because no branch reads `lastSeen`. -/

/-- `recovery.Config` (the health-check interval only paces the loop). -/
structure RecConfig where
  recoveryDelay : Nat
  maxRetries : Nat
  autoRestart : Bool
  autoResume : Bool
  clearDelay : Bool
deriving Repr

/-- `recovery.NodeState`, the per-node tracking record. -/
structure NodeTrack where
  lastSeen : Nat
  failedAt : Option Nat
  retryCount : Nat
  isRecovered : Bool
deriving DecidableEq, Repr

/-- The tracking record the supervisor creates on first sight of a node. -/
def NodeTrack.fresh : NodeTrack :=
  { lastSeen := 0, failedAt := none, retryCount := 0, isRecovered := false }

/-- `recovery.Stats`. -/
structure RecStats where
  totalRecoveries : Nat
  successRecoveries : Nat
  failedRecoveries : Nat
  currentlyFailed : Int
deriving DecidableEq, Repr

/-- Statistics of a fresh `recovery.Manager` (`recovery.New`). -/
def RecStats.zero : RecStats :=
  { totalRecoveries := 0, successRecoveries := 0, failedRecoveries := 0,
    currentlyFailed := 0 }

/-- `Manager.handleRunningNode`: if the node had a pending recovery
(`RetryCount > 0` and not yet marked recovered) count one success; then reset
the record (`LastSeen := now`, `RetryCount := 0`, `IsRecovered := false` —
the transient `IsRecovered := true` inside the branch is overwritten before
the lock is released). -/
def handleRunningNode (t : NodeTrack) (s : RecStats) (now : Nat) :
    NodeTrack × RecStats :=
  let s :=
    if ¬ t.isRecovered ∧ t.retryCount > 0 then
      { s with successRecoveries := s.successRecoveries + 1 }
    else s
  ({ lastSeen := now, failedAt := t.failedAt, retryCount := 0,
     isRecovered := false }, s)

/-- `Manager.handleStoppedNode`: no-op without AutoRestart; first sighting
records `failedAt` and bumps the gauge; a later sighting past the recovery
delay and under the retry budget bumps `RetryCount` and `TotalRecoveries`
and restarts the node — `Node.Start` on a stopped node succeeds, so the
gauge is decremented and `failedAt` cleared. -/
def handleStoppedNode (cfg : RecConfig) (t : NodeTrack) (s : RecStats) (now : Nat) :
    NodeTrack × RecStats :=
  if ¬ cfg.autoRestart then (t, s)
  else
    match t.failedAt with
    | none =>
        ({ t with failedAt := some now },
         { s with currentlyFailed := s.currentlyFailed + 1 })
    | some failedAt =>
        if now - failedAt < cfg.recoveryDelay then (t, s)
        else if cfg.maxRetries > 0 ∧ t.retryCount ≥ cfg.maxRetries then (t, s)
        else
          ({ t with retryCount := t.retryCount + 1, failedAt := none },
           { s with totalRecoveries := s.totalRecoveries + 1,
                    currentlyFailed := s.currentlyFailed - 1 })

/-- `Manager.handleSuspendedNode`: no-op without AutoResume; first sighting
records `failedAt`; a later sighting past the recovery delay bumps
`RetryCount` and `TotalRecoveries` and resumes the node — `Node.Resume` on a
suspended node succeeds, so `SuccessRecoveries` is incremented in the same
tick. -/
def handleSuspendedNode (cfg : RecConfig) (t : NodeTrack) (s : RecStats) (now : Nat) :
    NodeTrack × RecStats :=
  if ¬ cfg.autoResume then (t, s)
  else
    match t.failedAt with
    | none => ({ t with failedAt := some now }, s)
    | some failedAt =>
        if now - failedAt < cfg.recoveryDelay then (t, s)
        else
          ({ t with retryCount := t.retryCount + 1, failedAt := none },
           { s with totalRecoveries := s.totalRecoveries + 1,
                    successRecoveries := s.successRecoveries + 1 })

/-- `Manager.checkNode`: dispatch on the observed status. -/
def checkNode (cfg : RecConfig) (t : NodeTrack) (status : Status) (s : RecStats)
    (now : Nat) : NodeTrack × RecStats :=
  match status with
  | .running => handleRunningNode t s now
  | .stopped => handleStoppedNode cfg t s now
  | .suspended => handleSuspendedNode cfg t s now

/-- `Manager.checkAndRecover`, one health-check tick: check every node at the
same `now`, threading the statistics. -/
def checkAndRecover (cfg : RecConfig) (now : Nat) :
    List NodeTrack → List Status → RecStats → List NodeTrack × RecStats
  | [], _, s => ([], s)
  | ts, [], s => (ts, s)
  | t :: ts, st :: sts, s =>
      let r := checkNode cfg t st s now
      let rest := checkAndRecover cfg now ts sts r.2
      (r.1 :: rest.1, rest.2)

/-- A sequence of health-check ticks, each given by its timestamp and the
statuses the supervisor observes for each node at that tick. -/
def runHealthChecks (cfg : RecConfig) :
    List (Nat × List Status) → List NodeTrack → RecStats →
      List NodeTrack × RecStats
  | [], ts, s => (ts, s)
  | (now, sts) :: rest, ts, s =>
      let r := checkAndRecover cfg now ts sts s
      runHealthChecks cfg rest r.1 r.2

/-- A tracking record with a recovery attempt not yet re-observed `Running`
accounts for one future `SuccessRecoveries` increment. -/
def NodeTrack.pending (t : NodeTrack) : Nat :=
  if t.retryCount > 0 ∧ ¬ t.isRecovered then 1 else 0

/-- Sum of pending success increments over all tracking records. -/
def pendingSum : List NodeTrack → Nat
  | [] => 0
  | t :: ts => t.pending + pendingSum ts

theorem checkNode_invariant (cfg : RecConfig) (t : NodeTrack) (st : Status)
    (s : RecStats) (now : Nat) :
    (checkNode cfg t st s now).2.successRecoveries
        + (checkNode cfg t st s now).2.failedRecoveries
        + (checkNode cfg t st s now).1.pending
        + 2 * s.totalRecoveries
      ≤ s.successRecoveries + s.failedRecoveries + t.pending
        + 2 * (checkNode cfg t st s now).2.totalRecoveries := by
  cases st
  · unfold checkNode handleStoppedNode
    by_cases ha : cfg.autoRestart
    · cases hf : t.failedAt <;> simp only [ha, not_true_eq_false, if_false, hf]
      · simp [NodeTrack.pending]
      · split_ifs <;> simp [NodeTrack.pending] <;> split_ifs <;> omega
    · simp [ha]
  · unfold checkNode handleRunningNode
    cases hrec : t.isRecovered <;>
      rcases Nat.eq_zero_or_pos t.retryCount with hr | hr <;>
        simp [NodeTrack.pending, hrec, hr] <;> omega
  · unfold checkNode handleSuspendedNode
    by_cases ha : cfg.autoResume
    · cases hf : t.failedAt <;> simp only [ha, not_true_eq_false, if_false, hf]
      · simp [NodeTrack.pending]
      · split_ifs <;> simp [NodeTrack.pending] <;> split_ifs <;> omega
    · simp [ha]

theorem checkAndRecover_invariant (cfg : RecConfig) (now : Nat)
    (ts : List NodeTrack) (sts : List Status) (s : RecStats) :
    (checkAndRecover cfg now ts sts s).2.successRecoveries
        + (checkAndRecover cfg now ts sts s).2.failedRecoveries
        + pendingSum (checkAndRecover cfg now ts sts s).1
        + 2 * s.totalRecoveries
      ≤ s.successRecoveries + s.failedRecoveries + pendingSum ts
        + 2 * (checkAndRecover cfg now ts sts s).2.totalRecoveries := by
  induction ts generalizing sts s with
  | nil => simp [checkAndRecover]
  | cons t rest ih =>
      cases sts with
      | nil => simp [checkAndRecover]
      | cons st sts =>
          have h1 := checkNode_invariant cfg t st s now
          have h2 := ih sts (checkNode cfg t st s now).2
          simp only [checkAndRecover, pendingSum] at h2 ⊢
          omega

theorem runHealthChecks_invariant (cfg : RecConfig)
    (ticks : List (Nat × List Status)) (ts : List NodeTrack) (s : RecStats) :
    (runHealthChecks cfg ticks ts s).2.successRecoveries
        + (runHealthChecks cfg ticks ts s).2.failedRecoveries
        + pendingSum (runHealthChecks cfg ticks ts s).1
        + 2 * s.totalRecoveries
      ≤ s.successRecoveries + s.failedRecoveries + pendingSum ts
        + 2 * (runHealthChecks cfg ticks ts s).2.totalRecoveries := by
  induction ticks generalizing ts s with
  | nil => simp [runHealthChecks]
  | cons tick rest ih =>
      obtain ⟨now, sts⟩ := tick
      have h1 := checkAndRecover_invariant cfg now ts sts s
      have h2 := ih (checkAndRecover cfg now ts sts s).1
        (checkAndRecover cfg now ts sts s).2
      simp only [runHealthChecks] at h2 ⊢
      omega

theorem pendingSum_replicate_fresh (n : Nat) :
    pendingSum (List.replicate n NodeTrack.fresh) = 0 := by
  induction n with
  | zero => rfl
  | succ k ih =>
      have h0 : NodeTrack.fresh.pending = 0 := rfl
      simp [List.replicate_succ, pendingSum, h0, ih]

/-- C2 (amended). For every supervisor configuration, node count and sequence
of health-check ticks, SuccessRecoveries + FailedRecoveries ≤
2 × TotalRecoveries.  The claimed TotalRecoveries ≥ SuccessRecoveries +
FailedRecoveries does not hold: a successful resume recovery is counted as a
success twice — once by `handleSuspendedNode` when the resume succeeds and
once more by `handleRunningNode` at the next tick that observes the node
`Running` (its `RetryCount` is still positive) — and a successful restart is
counted as a success only at that later observation, so the claimed equality
between ticks fails as well. -/
theorem C2_recovery_counters (cfg : RecConfig) (n : Nat)
    (ticks : List (Nat × List Status)) :
    (runHealthChecks cfg ticks (List.replicate n NodeTrack.fresh)
        RecStats.zero).2.successRecoveries
      + (runHealthChecks cfg ticks (List.replicate n NodeTrack.fresh)
          RecStats.zero).2.failedRecoveries
      ≤ 2 * (runHealthChecks cfg ticks (List.replicate n NodeTrack.fresh)
          RecStats.zero).2.totalRecoveries := by
  have h := runHealthChecks_invariant cfg ticks (List.replicate n NodeTrack.fresh)
    RecStats.zero
  have hz1 : RecStats.zero.successRecoveries = 0 := rfl
  have hz2 : RecStats.zero.failedRecoveries = 0 := rfl
  have hz3 : RecStats.zero.totalRecoveries = 0 := rfl
  have hp := pendingSum_replicate_fresh n
  omega

/-- C2 counterexample. One node, default-style configuration
(RecoveryDelay 2, AutoResume on): the node is observed Suspended at times 1
and 4 — the second sighting resumes it (TotalRecoveries = 1,
SuccessRecoveries = 1) — and Running at time 5, where the supervisor counts
the same recovery as a success again.  Final counters: TotalRecoveries = 1,
SuccessRecoveries = 2, FailedRecoveries = 0, so TotalRecoveries ≥
SuccessRecoveries + FailedRecoveries is violated. -/
theorem C2_counterexample :
    ¬ ((runHealthChecks
          { recoveryDelay := 2, maxRetries := 3, autoRestart := true,
            autoResume := true, clearDelay := true }
          [(1, [Status.suspended]), (4, [Status.suspended]), (5, [Status.running])]
          [NodeTrack.fresh] RecStats.zero).2.totalRecoveries
        ≥ (runHealthChecks
            { recoveryDelay := 2, maxRetries := 3, autoRestart := true,
              autoResume := true, clearDelay := true }
            [(1, [Status.suspended]), (4, [Status.suspended]), (5, [Status.running])]
            [NodeTrack.fresh] RecStats.zero).2.successRecoveries
          + (runHealthChecks
              { recoveryDelay := 2, maxRetries := 3, autoRestart := true,
                autoResume := true, clearDelay := true }
              [(1, [Status.suspended]), (4, [Status.suspended]), (5, [Status.running])]
              [NodeTrack.fresh] RecStats.zero).2.failedRecoveries) := by
  decide

end ChaosKVS
